import Mathlib

/-!
Verification of the core telemetry pipeline of `IoT_Platform.py`
(air-quality monitoring dashboard): frame extraction, validation,
dispatch, throttled persistence, sample initialization and the
liveness watchdog, shallowly embedded in Lean.
-/

namespace AirQuality

/-- A value taken from a parsed JSON field map, abstracted by the only
three observations `IoT_Platform.py` ever makes of such a value:
`int(v)` (`asInt`, `none` when the call raises `ValueError`/`TypeError`),
`float(v)` (`asFloat`, `none` when it raises), and `str(v)` (`asStr`,
which always succeeds in Python). -/
structure JVal where
  asInt : Option Int
  asFloat : Option Rat
  asStr : String
deriving DecidableEq

/-- Truncation toward zero, the behaviour of Python `int()` on a float. -/
def ratTrunc (q : Rat) : Int :=
  if q < 0 then ⌈q⌉ else ⌊q⌋

/-- The `JVal` of a Python `int` `n`: `int(n) = n`, `float(n) = n`,
`str(n)` is its decimal rendering. -/
def JVal.ofInt (n : Int) : JVal :=
  ⟨some n, some (n : Rat), toString n⟩

/-- The `JVal` of a Python `float` (modelled as a rational) `q`:
`int(q)` truncates toward zero, `float(q) = q`. -/
def JVal.ofFloat (q : Rat) : JVal :=
  ⟨some (ratTrunc q), some q, toString q⟩

/-- The `JVal` of a Python `str` `s`: `str(s) = s`. The validator only
ever applies `str()` to the field this wraps (`nodeType`), so the
numeric coercions are modelled as failing; no theorem below depends on
them. -/
def JVal.ofStr (s : String) : JVal :=
  ⟨none, none, s⟩

/-- One untyped field map handed to `SerialReader.validate_sensor_data`:
each key of the wire format is present (`some`) or absent (`none`). -/
structure FieldMap where
  nodeId : Option JVal := none
  nodeType : Option JVal := none
  pm25 : Option JVal := none
  pm10 : Option JVal := none
  eco2 : Option JVal := none
  tvoc : Option JVal := none
  co : Option JVal := none
  no2 : Option JVal := none
  temp : Option JVal := none
  humidity : Option JVal := none
deriving DecidableEq

/-- One validated telemetry sample, the dict `validate_sensor_data`
returns: the coerced `nodeId`, the stringified `nodeType` when the key
was present, and each measurement that survived validation. -/
@[ext]
structure Reading where
  nodeId : Int
  nodeType : Option String
  pm25 : Option Rat
  pm10 : Option Rat
  eco2 : Option Rat
  tvoc : Option Rat
  co : Option Rat
  no2 : Option Rat
  temp : Option Rat
  humidity : Option Rat
deriving DecidableEq

/-- The per-field step of `validate_sensor_data`: when the key is
present, `float()` it and keep the value only when the coercion
succeeds and the result lies in `[lo, hi]`; any failure drops just
this field. -/
def keepNumeric (v : Option JVal) (lo hi : Rat) : Option Rat :=
  match v with
  | none => none
  | some jv =>
    match jv.asFloat with
    | none => none
    | some q => if lo ≤ q ∧ q ≤ hi then some q else none

/-- The number of measurement keys present in a validated dict. -/
def measurementCount (r : Reading) : Nat :=
  (if r.pm25.isSome then 1 else 0) + (if r.pm10.isSome then 1 else 0) +
  (if r.eco2.isSome then 1 else 0) + (if r.tvoc.isSome then 1 else 0) +
  (if r.co.isSome then 1 else 0) + (if r.no2.isSome then 1 else 0) +
  (if r.temp.isSome then 1 else 0) + (if r.humidity.isSome then 1 else 0)

/-- `len(validated)`: the `nodeId` key, the optional `nodeType` key,
and the surviving measurement keys. -/
def validatedLen (r : Reading) : Nat :=
  1 + (if r.nodeType.isSome then 1 else 0) + measurementCount r

/-- The dict built by `validate_sensor_data` once the source id has
been coerced to `n`: `nodeType` stringified when present, each
measurement passed through its range check (`pm25`/`pm10`/`eco2`/
`tvoc`/`co`/`no2` against `[0, 10000]`, `temp` against `[-50, 100]`,
`humidity` against `[0, 100]`). -/
def buildReading (data : FieldMap) (n : Int) : Reading where
  nodeId := n
  nodeType := data.nodeType.map JVal.asStr
  pm25 := keepNumeric data.pm25 0 10000
  pm10 := keepNumeric data.pm10 0 10000
  eco2 := keepNumeric data.eco2 0 10000
  tvoc := keepNumeric data.tvoc 0 10000
  co := keepNumeric data.co 0 10000
  no2 := keepNumeric data.no2 0 10000
  temp := keepNumeric data.temp (-50) 100
  humidity := keepNumeric data.humidity 0 100

/-- `SerialReader.validate_sensor_data` (src/IoT_Platform.py, lines
792-833): require a `nodeId` key whose `int()` coercion succeeds and
lands in `{1, 2, 3}`, validate each measurement independently, and
return the dict only when `len(validated) > 1`. -/
def validate_sensor_data (data : FieldMap) : Option Reading :=
  match data.nodeId with
  | none => none
  | some v =>
    match v.asInt with
    | none => none
    | some n =>
      if 1 ≤ n ∧ n ≤ 3 then
        let r := buildReading data n
        if 1 < validatedLen r then some r else none
      else none

lemma validate_eq_some_iff (m : FieldMap) (r : Reading) :
    validate_sensor_data m = some r ↔
      ∃ v n, m.nodeId = some v ∧ v.asInt = some n ∧ (1 ≤ n ∧ n ≤ 3) ∧
        1 < validatedLen (buildReading m n) ∧ r = buildReading m n := by
  unfold validate_sensor_data
  cases hid : m.nodeId with
  | none => simp
  | some v =>
    cases hint : v.asInt with
    | none => simp [hint]
    | some n =>
      simp only [hint]
      constructor
      · intro h
        by_cases hrange : 1 ≤ n ∧ n ≤ 3
        · rw [if_pos hrange] at h
          by_cases hlen : 1 < validatedLen (buildReading m n)
          · rw [if_pos hlen] at h
            exact ⟨v, n, rfl, hint, hrange, hlen, ((Option.some.injEq _ _).mp h).symm⟩
          · rw [if_neg hlen] at h
            exact absurd h (by simp)
        · rw [if_neg hrange] at h
          exact absurd h (by simp)
      · rintro ⟨v', n', hv', hn', hrange, hlen, hr⟩
        obtain rfl : v = v' := by simpa using hv'
        obtain rfl : n = n' := by rw [hint] at hn'; exact (Option.some.injEq _ _).mp hn'
        rw [if_pos hrange, if_pos hlen, hr]

lemma keepNumeric_some_bounds {v : Option JVal} {lo hi q : Rat}
    (h : keepNumeric v lo hi = some q) : lo ≤ q ∧ q ≤ hi := by
  unfold keepNumeric at h
  cases v with
  | none => simp at h
  | some jv =>
    cases hf : jv.asFloat with
    | none => simp [hf] at h
    | some q' =>
      simp only [hf] at h
      split at h
      · obtain rfl : q' = q := by simpa using h
        assumption
      · simp at h

/-- Evaluation of the validator once the source id gate is known to
pass: everything reduces to the `len(validated) > 1` test. -/
lemma validate_eval (m : FieldMap) (v : JVal) (n : Int)
    (h1 : m.nodeId = some v) (h2 : v.asInt = some n) (h3 : 1 ≤ n ∧ n ≤ 3) :
    validate_sensor_data m =
      if 1 < validatedLen (buildReading m n) then some (buildReading m n) else none := by
  by_cases hlen : 1 < validatedLen (buildReading m n)
  · rw [if_pos hlen]
    exact (validate_eq_some_iff m _).mpr ⟨v, n, h1, h2, h3, hlen, rfl⟩
  · rw [if_neg hlen]
    cases hval : validate_sensor_data m with
    | none => rfl
    | some r =>
      obtain ⟨v', n', hv', hn', _, hlen', _⟩ := (validate_eq_some_iff m r).mp hval
      rw [h1] at hv'
      obtain rfl : v = v' := by simpa using hv'
      rw [h2] at hn'
      obtain rfl : n = n' := by simpa using hn'
      exact absurd hlen' hlen

/-- A field map carrying a valid source id and a type label but not a
single measurement key. -/
def mTypedBare : FieldMap :=
  { nodeId := some (JVal.ofInt 1), nodeType := some (JVal.ofStr "ESP32-S3") }

/-- The measurement-free reading the validator emits for `mTypedBare`. -/
def rTypedBare : Reading :=
  { nodeId := 1, nodeType := some "ESP32-S3", pm25 := none, pm10 := none,
    eco2 := none, tvoc := none, co := none, no2 := none, temp := none,
    humidity := none }

/-- Claim C1, counterexample: a field map whose source id coerces to
1 ∈ {1,2,3}, in which no measurement field survives (none is present),
but which carries a `nodeType` label, is NOT rejected: the validator
returns a reading with zero measurements, because `nodeType` already
makes `len(validated) = 2 > 1`. -/
theorem nodeType_only_record_accepted :
    validate_sensor_data mTypedBare = some rTypedBare ∧
      measurementCount rTypedBare = 0 := by
  constructor <;> rfl

/-- Claim C1 (amended): for a field map whose source id coerces to an
integer in {1,2,3} and in which no measurement field survives
validation, the validator rejects the record when no `nodeType` label
is present; when a `nodeType` label is present the record is instead
accepted as a reading with zero measurement fields. -/
theorem validate_rejects_bare_record (m : FieldMap) (v : JVal) (n : Int)
    (h1 : m.nodeId = some v) (h2 : v.asInt = some n)
    (h3 : 1 ≤ n) (h4 : n ≤ 3)
    (h5 : measurementCount (buildReading m n) = 0) :
    (m.nodeType = none → validate_sensor_data m = none) ∧
    (∀ t, m.nodeType = some t →
      validate_sensor_data m = some (buildReading m n) ∧
        measurementCount (buildReading m n) = 0) := by
  have hev := validate_eval m v n h1 h2 ⟨h3, h4⟩
  have hnt : (buildReading m n).nodeType = m.nodeType.map JVal.asStr := rfl
  constructor
  · intro ht
    have hone : validatedLen (buildReading m n) = 1 := by
      unfold validatedLen
      rw [h5, hnt, ht]
      rfl
    rw [hev, hone, if_neg (by omega)]
  · intro t ht
    have htwo : validatedLen (buildReading m n) = 2 := by
      unfold validatedLen
      rw [h5, hnt, ht]
      rfl
    rw [hev, htwo, if_pos (by omega)]
    exact ⟨rfl, h5⟩

/-- A field map with a valid source id, no type label and no
measurement key. -/
def mBare : FieldMap := { nodeId := some (JVal.ofInt 2) }

/-- Witness for the amended claim C1 at a concrete input. -/
theorem validate_rejects_bare_record_witness :
    validate_sensor_data mBare = none :=
  (validate_rejects_bare_record mBare (JVal.ofInt 2) 2 rfl rfl (by decide)
    (by decide) rfl).1 rfl

/-- What the spec's range property demands of one measurement field:
absent input stays absent, a non-coercible value is dropped, an
in-range value is kept numerically unchanged, an out-of-range value is
dropped. -/
def rangeRespects (inp : Option JVal) (lo hi : Rat) (outp : Option Rat) : Prop :=
  (inp = none → outp = none) ∧
  ∀ jv, inp = some jv →
    (jv.asFloat = none → outp = none) ∧
    ∀ q, jv.asFloat = some q →
      ((lo ≤ q ∧ q ≤ hi) → outp = some q) ∧ (¬(lo ≤ q ∧ q ≤ hi) → outp = none)

lemma keepNumeric_rangeRespects (inp : Option JVal) (lo hi : Rat) :
    rangeRespects inp lo hi (keepNumeric inp lo hi) := by
  constructor
  · intro h
    simp [keepNumeric, h]
  · intro jv hjv
    constructor
    · intro hf
      simp [keepNumeric, hjv, hf]
    · intro q hq
      constructor
      · intro hin
        simp [keepNumeric, hjv, hq, hin.1, hin.2]
      · intro hout
        simp only [keepNumeric, hjv, hq]
        rw [if_neg hout]

lemma validate_fields_eq {m : FieldMap} {r : Reading}
    (h : validate_sensor_data m = some r) :
    r.pm25 = keepNumeric m.pm25 0 10000 ∧ r.pm10 = keepNumeric m.pm10 0 10000 ∧
    r.eco2 = keepNumeric m.eco2 0 10000 ∧ r.tvoc = keepNumeric m.tvoc 0 10000 ∧
    r.co = keepNumeric m.co 0 10000 ∧ r.no2 = keepNumeric m.no2 0 10000 ∧
    r.temp = keepNumeric m.temp (-50) 100 ∧
    r.humidity = keepNumeric m.humidity 0 100 := by
  obtain ⟨v, n, _, _, _, _, rfl⟩ := (validate_eq_some_iff m r).mp h
  exact ⟨rfl, rfl, rfl, rfl, rfl, rfl, rfl, rfl⟩

/-- Claim C4: whenever the validator accepts a field map, every one of
the eight measurement fields of the resulting reading respects its
declared range — out-of-range or non-numeric input values are absent
from the reading, in-range values are present numerically unchanged
(`pm25`/`pm10`/`eco2`/`tvoc`/`co`/`no2` against `[0, 10000]`,
temperature against `[-50, 100]`, humidity against `[0, 100]`). -/
theorem validated_fields_range_respecting (m : FieldMap) (r : Reading)
    (h : validate_sensor_data m = some r) :
    rangeRespects m.pm25 0 10000 r.pm25 ∧ rangeRespects m.pm10 0 10000 r.pm10 ∧
    rangeRespects m.eco2 0 10000 r.eco2 ∧ rangeRespects m.tvoc 0 10000 r.tvoc ∧
    rangeRespects m.co 0 10000 r.co ∧ rangeRespects m.no2 0 10000 r.no2 ∧
    rangeRespects m.temp (-50) 100 r.temp ∧
    rangeRespects m.humidity 0 100 r.humidity := by
  obtain ⟨h1, h2, h3, h4, h5, h6, h7, h8⟩ := validate_fields_eq h
  rw [h1, h2, h3, h4, h5, h6, h7, h8]
  exact ⟨keepNumeric_rangeRespects _ _ _, keepNumeric_rangeRespects _ _ _,
    keepNumeric_rangeRespects _ _ _, keepNumeric_rangeRespects _ _ _,
    keepNumeric_rangeRespects _ _ _, keepNumeric_rangeRespects _ _ _,
    keepNumeric_rangeRespects _ _ _, keepNumeric_rangeRespects _ _ _⟩

/-- Scenario A's frame: source 1 with `pm25 = 45` and `eco2 = 900`. -/
def mSampleA : FieldMap :=
  { nodeId := some (JVal.ofInt 1), pm25 := some (JVal.ofFloat 45),
    eco2 := some (JVal.ofFloat 900) }

/-- The reading the validator produces from `mSampleA`. -/
def rSampleA : Reading :=
  { nodeId := 1, nodeType := none, pm25 := some 45, pm10 := none,
    eco2 := some 900, tvoc := none, co := none, no2 := none, temp := none,
    humidity := none }

/-- Witness for claim C4 at a concrete accepted field map. -/
theorem validated_fields_range_respecting_witness :
    validate_sensor_data mSampleA = some rSampleA ∧
    (rangeRespects mSampleA.pm25 0 10000 rSampleA.pm25 ∧
     rangeRespects mSampleA.pm10 0 10000 rSampleA.pm10 ∧
     rangeRespects mSampleA.eco2 0 10000 rSampleA.eco2 ∧
     rangeRespects mSampleA.tvoc 0 10000 rSampleA.tvoc ∧
     rangeRespects mSampleA.co 0 10000 rSampleA.co ∧
     rangeRespects mSampleA.no2 0 10000 rSampleA.no2 ∧
     rangeRespects mSampleA.temp (-50) 100 rSampleA.temp ∧
     rangeRespects mSampleA.humidity 0 100 rSampleA.humidity) :=
  ⟨rfl, validated_fields_range_respecting mSampleA rSampleA rfl⟩

/-- The field map of an already-validated reading, as re-fed to the
validator: `nodeId` is a Python `int`, `nodeType` a `str`, each kept
measurement a `float`. -/
def Reading.toFieldMap (r : Reading) : FieldMap where
  nodeId := some (JVal.ofInt r.nodeId)
  nodeType := r.nodeType.map JVal.ofStr
  pm25 := r.pm25.map JVal.ofFloat
  pm10 := r.pm10.map JVal.ofFloat
  eco2 := r.eco2.map JVal.ofFloat
  tvoc := r.tvoc.map JVal.ofFloat
  co := r.co.map JVal.ofFloat
  no2 := r.no2.map JVal.ofFloat
  temp := r.temp.map JVal.ofFloat
  humidity := r.humidity.map JVal.ofFloat

lemma keepNumeric_map_ofFloat {x : Option Rat} {lo hi : Rat}
    (hb : ∀ q, x = some q → lo ≤ q ∧ q ≤ hi) :
    keepNumeric (x.map JVal.ofFloat) lo hi = x := by
  cases x with
  | none => rfl
  | some q =>
    obtain ⟨hl, hr⟩ := hb q rfl
    simp [keepNumeric, JVal.ofFloat, hl, hr]

lemma keepNumeric_roundtrip (inp : Option JVal) (lo hi : Rat) :
    keepNumeric ((keepNumeric inp lo hi).map JVal.ofFloat) lo hi =
      keepNumeric inp lo hi :=
  keepNumeric_map_ofFloat (fun _ hq => keepNumeric_some_bounds hq)

lemma map_ofStr_asStr (x : Option String) :
    (x.map JVal.ofStr).map JVal.asStr = x := by
  cases x <;> rfl

/-- Claim C8: validation is idempotent — whenever the validator accepts
a field map producing reading `r`, re-validating `r`'s own field map
succeeds and returns exactly `r`. -/
theorem validate_idempotent (m : FieldMap) (r : Reading)
    (h : validate_sensor_data m = some r) :
    validate_sensor_data r.toFieldMap = some r := by
  obtain ⟨v, n, hv, hn, hrange, hlen, rfl⟩ := (validate_eq_some_iff m r).mp h
  have hb : buildReading (Reading.toFieldMap (buildReading m n)) n =
      buildReading m n := by
    apply Reading.ext
    · rfl
    · exact map_ofStr_asStr (m.nodeType.map JVal.asStr)
    · exact keepNumeric_roundtrip m.pm25 0 10000
    · exact keepNumeric_roundtrip m.pm10 0 10000
    · exact keepNumeric_roundtrip m.eco2 0 10000
    · exact keepNumeric_roundtrip m.tvoc 0 10000
    · exact keepNumeric_roundtrip m.co 0 10000
    · exact keepNumeric_roundtrip m.no2 0 10000
    · exact keepNumeric_roundtrip m.temp (-50) 100
    · exact keepNumeric_roundtrip m.humidity 0 100
  have hev := validate_eval (Reading.toFieldMap (buildReading m n))
    (JVal.ofInt n) n rfl rfl hrange
  rw [hev, hb, if_pos hlen]

/-- Witness for claim C8 at a concrete accepted field map. -/
theorem validate_idempotent_witness :
    validate_sensor_data mSampleA = some rSampleA ∧
      validate_sensor_data rSampleA.toFieldMap = some rSampleA :=
  ⟨rfl, validate_idempotent mSampleA rSampleA rfl⟩

/-- The eligibility test of `MainWindow.check_db_save` for one source:
save when `last_db_save[node_id]` is `None` or at least 5 seconds have
elapsed since it. Times are in seconds. -/
def eligible (lastSave : Option Int) (t : Int) : Bool :=
  match lastSave with
  | none => true
  | some ls => 5 ≤ t - ls

/-- One 1-second persistence tick of `check_db_save` for one source:
when eligible, `insert_sensor_data` is attempted; `insertOk` is its
outcome; only a successful write advances `last_db_save`. Returns the
new cursor and whether a successful write happened at this tick. -/
def tickSave (lastSave : Option Int) (t : Int) (insertOk : Bool) :
    Option Int × Bool :=
  if eligible lastSave t then
    if insertOk then (some t, true) else (lastSave, false)
  else (lastSave, false)

/-- The times of the successful writes produced by a sequence of
persistence ticks `(time, insert outcome)`, starting from cursor
`lastSave`. -/
def writeTimes (lastSave : Option Int) : List (Int × Bool) → List Int
  | [] => []
  | (t, ok) :: rest =>
    if eligible lastSave t then
      if ok then t :: writeTimes (some t) rest
      else writeTimes lastSave rest
    else writeTimes lastSave rest

lemma writeTimes_ge (trace : List (Int × Bool)) :
    ∀ l : Int, ∀ w ∈ writeTimes (some l) trace, l + 5 ≤ w := by
  induction trace with
  | nil => intro l w hw; simp [writeTimes] at hw
  | cons p rest ih =>
    intro l w hw
    obtain ⟨t, ok⟩ := p
    unfold writeTimes at hw
    by_cases hel : eligible (some l) t = true
    · rw [if_pos hel] at hw
      have hlt : 5 ≤ t - l := by simpa [eligible] using hel
      cases ok with
      | true =>
        simp only [if_pos] at hw
        rcases List.mem_cons.mp hw with rfl | hw'
        · omega
        · have := ih t w hw'
          omega
      | false =>
        simp only [Bool.false_eq_true, if_neg] at hw
        exact ih l w hw
    · rw [if_neg hel] at hw
      exact ih l w hw

/-- Claim C3: in any run of the persistence tick for one source, the
successful Store writes are pairwise separated by at least 5 seconds
(each later write time is at least 5 seconds after each earlier one),
whatever the initial cursor, the tick times, and the insert
outcomes. -/
theorem write_times_pairwise_separated (ls0 : Option Int)
    (trace : List (Int × Bool)) :
    List.Pairwise (fun a b => a + 5 ≤ b) (writeTimes ls0 trace) := by
  induction trace generalizing ls0 with
  | nil => exact List.Pairwise.nil
  | cons p rest ih =>
    obtain ⟨t, ok⟩ := p
    unfold writeTimes
    by_cases hel : eligible ls0 t = true
    · rw [if_pos hel]
      cases ok with
      | true =>
        simp only [if_pos]
        exact List.pairwise_cons.mpr ⟨fun w hw => writeTimes_ge rest t w hw, ih (some t)⟩
      | false =>
        simp only [Bool.false_eq_true, if_neg]
        exact ih ls0
    · rw [if_neg hel]
      exact ih ls0

/-- Claim C7: a failed Store write is non-fatal and leaves the cursor
unchanged — the tick returns with the cursor exactly as before — and
since the cursor is unchanged, every later tick time is still eligible,
so the write is attempted again at the next eligible tick. -/
theorem failed_write_cursor_unchanged_retry (ls : Option Int) (t u : Int)
    (hel : eligible ls t = true) (hle : t ≤ u) :
    tickSave ls t false = (ls, false) ∧ eligible ls u = true := by
  constructor
  · unfold tickSave
    rw [if_pos hel]
    rfl
  · cases ls with
    | none => rfl
    | some l =>
      have h5 : 5 ≤ t - l := by simpa [eligible] using hel
      simp only [eligible, decide_eq_true_eq]
      omega

/-- Witness for claim C7 at a concrete cursor and tick times. -/
theorem failed_write_cursor_unchanged_retry_witness :
    tickSave (some 0) 5 false = (some 0, false) ∧ eligible (some 0) 6 = true :=
  failed_write_cursor_unchanged_retry (some 0) 5 6 (by decide) (by decide)

/-- The offline test of one `MainWindow.update_all` sweep for one
source: `node_data[node_id]['timestamp']` is present and more than 60
seconds old. When it holds, the sweep emits the offline indication
(`set_offline` plus the dashboard relabeling) for that source — there
is no `online` flag consulted and nothing records that the indication
was already emitted. -/
def sweepOffline (nodeTs : Option Int) (now : Int) : Bool :=
  match nodeTs with
  | none => false
  | some ts => 60 < now - ts

/-- How many sweeps of a given list emit the offline indication for a
source whose last reading timestamp is `nodeTs`. -/
def offlineEmissions (nodeTs : Option Int) (sweeps : List Int) : Nat :=
  (sweeps.filter (fun now => sweepOffline nodeTs now)).length

/-- Claim C2, counterexample: a source last seen at t = 0 receives the
offline indication at both the t = 61 and the t = 62 sweep — two
emissions for one silence, not exactly one. -/
theorem offline_reemitted_each_sweep :
    offlineEmissions (some 0) [61, 62] = 2 := by
  decide

/-- Claim C2 (amended): a sweep emits the offline indication for a
source exactly when a reading timestamp is recorded for it and more
than 60 seconds have elapsed — no online/offline state is consulted —
and once it fires, every later sweep fires again as long as no new
reading arrives. -/
theorem sweep_offline_characterization (ts now u : Int) (hle : now ≤ u) :
    (sweepOffline (some ts) now = true ↔ 60 < now - ts) ∧
    (sweepOffline (some ts) now = true → sweepOffline (some ts) u = true) := by
  have hiff : ∀ w : Int, sweepOffline (some ts) w = true ↔ 60 < w - ts := by
    intro w
    simp [sweepOffline]
  refine ⟨hiff now, fun h => ?_⟩
  have := (hiff now).mp h
  exact (hiff u).mpr (by omega)

/-- Witness for the amended claim C2 at concrete sweep times. -/
theorem sweep_offline_characterization_witness :
    (sweepOffline (some 0) 61 = true ↔ (60 : Int) < 61 - 0) ∧
    (sweepOffline (some 0) 61 = true → sweepOffline (some 0) 62 = true) :=
  sweep_offline_characterization 0 61 62 (by decide)

/-- `MainWindow.handle_data` delivers one reading to its consumers
(the node widget, the graph widget, the infographics widget, the
general dashboard) by plain sequential calls with no exception
handling: a consumer that raises aborts the remaining calls. Each
registered consumer is represented by whether it raises on this
reading; the result is how many consumers, in registration order, are
actually invoked with the reading. -/
def dispatchReached : List Bool → Nat
  | [] => 0
  | raisesHere :: rest => if raisesHere then 1 else 1 + dispatchReached rest

/-- Claim C5, counterexample: with two registered consumers of which
the first raises, only one consumer is invoked — the second, later in
registration order, never receives the reading. -/
theorem consumer_failure_blocks_later_consumers :
    dispatchReached [true, false] = 1 ∧ [true, false].length = 2 := by
  decide

/-- Claim C5 (amended): dispatch of one reading stops at the first
failing consumer — when every consumer before the failing one
succeeds, exactly the consumers up to and including it are invoked,
and the consumers registered after it do not receive the reading. -/
theorem dispatch_stops_at_first_failure (pre post : List Bool)
    (hpre : ∀ b ∈ pre, b = false) :
    dispatchReached (pre ++ true :: post) = pre.length + 1 := by
  induction pre with
  | nil => simp [dispatchReached]
  | cons b rest ih =>
    have hb : b = false := hpre b (List.mem_cons_self b rest)
    have hrest : ∀ x ∈ rest, x = false := fun x hx => hpre x (List.mem_cons_of_mem b hx)
    subst hb
    calc dispatchReached ((false :: rest) ++ true :: post)
        = 1 + dispatchReached (rest ++ true :: post) := rfl
      _ = 1 + (rest.length + 1) := by rw [ih hrest]
      _ = (false :: rest).length + 1 := by
          simp only [List.length_cons]
          omega

/-- Witness for the amended claim C5 at a concrete consumer list. -/
theorem dispatch_stops_at_first_failure_witness :
    dispatchReached ([false] ++ true :: [false]) = [false].length + 1 :=
  dispatch_stops_at_first_failure [false] [false] (by decide)

/-- The opening frame delimiter. -/
def openBrace : Char := '{'

/-- The closing frame delimiter. -/
def closeBrace : Char := '}'

/-- `str.index`: position of the first occurrence of `c` (the chunk is
only sliced under a membership guard, so the out-of-range value for an
absent character is never used). -/
def idxOfChar (c : Char) : List Char → Nat
  | [] => 0
  | x :: rest => if x = c then 0 else 1 + idxOfChar c rest

/-- Frame extraction in `SerialReader.run` (src/IoT_Platform.py, lines
847-850): when the received chunk contains both delimiters, the JSON
candidate handed to the parser is the slice from `line.index(brace)`,
the FIRST opening delimiter, through `line.rindex(brace)`, the LAST
closing delimiter, inclusive. -/
def extractCandidate (line : List Char) : Option (List Char) :=
  if openBrace ∈ line ∧ closeBrace ∈ line then
    some ((line.drop (idxOfChar openBrace line)).take
      (line.length - 1 - idxOfChar closeBrace line.reverse + 1 -
        idxOfChar openBrace line))
  else none

/-- Modelled from the claim's words, for comparison with
`extractCandidate` only: the scanner that stops at the matching
closing delimiter of the first opening delimiter, tracking nesting
depth. -/
def scanBalanced : Nat → List Char → Option (List Char)
  | _, [] => none
  | depth, c :: rest =>
    if c = openBrace then (scanBalanced (depth + 1) rest).map (c :: ·)
    else if c = closeBrace then
      if depth = 1 then some [c]
      else (scanBalanced (depth - 1) rest).map (c :: ·)
    else (scanBalanced depth rest).map (c :: ·)

/-- Modelled from the claim's words: the substring spanned by the
first balanced opening/closing delimiter pair, inclusive. -/
def firstBalancedFrame (line : List Char) : Option (List Char) :=
  scanBalanced 0 (line.dropWhile (fun c => c ≠ openBrace))

/-- A chunk holding two complete frames back to back. -/
def exChunk : List Char := ['{', 'a', '}', '{', 'b', '}']

/-- The first balanced frame of `exChunk`. -/
def exFrame : List Char := ['{', 'a', '}']

/-- Claim C6, counterexample: on a chunk holding two complete frames,
the extractor submits the whole span from the first opening delimiter
to the LAST closing delimiter — including the text after the first
frame's closing delimiter — not the first balanced pair. -/
theorem extractor_spans_past_first_frame :
    extractCandidate exChunk = some exChunk ∧
    firstBalancedFrame exChunk = some exFrame ∧
    extractCandidate exChunk ≠ firstBalancedFrame exChunk := by
  refine ⟨?_, ?_, ?_⟩ <;> decide

lemma idxOfChar_cons_self (c : Char) (rest : List Char) :
    idxOfChar c (c :: rest) = 0 := by
  simp [idxOfChar]

lemma idxOfChar_append_not_mem {c : Char} {a : List Char} (rest : List Char)
    (h : c ∉ a) : idxOfChar c (a ++ rest) = a.length + idxOfChar c rest := by
  induction a with
  | nil => simp
  | cons x t ih =>
    have hxc : ¬ x = c := fun he => h (he ▸ List.mem_cons_self x t)
    have ht : c ∉ t := fun hm => h (List.mem_cons_of_mem x hm)
    show (if x = c then 0 else 1 + idxOfChar c (t ++ rest)) =
      (x :: t).length + idxOfChar c rest
    rw [if_neg hxc, ih ht, List.length_cons]
    omega

/-- Claim C6 (amended): for a chunk decomposed around its first
opening delimiter and its last closing delimiter, the extractor
submits exactly the span between those two, inclusive — so everything
between them, including any earlier closing delimiters and complete
frames, lands in one parse candidate. -/
theorem extract_first_open_to_last_close (a b d : List Char)
    (ha : openBrace ∉ a) (hd : closeBrace ∉ d) :
    extractCandidate (a ++ openBrace :: b ++ closeBrace :: d) =
      some (openBrace :: b ++ [closeBrace]) := by
  set l := a ++ openBrace :: b ++ closeBrace :: d with hl
  have hmem : openBrace ∈ l ∧ closeBrace ∈ l := by
    constructor <;> simp [hl]
  have hjs : idxOfChar openBrace l = a.length := by
    rw [hl, show a ++ openBrace :: b ++ closeBrace :: d =
      a ++ (openBrace :: (b ++ closeBrace :: d)) by simp,
      idxOfChar_append_not_mem _ ha, idxOfChar_cons_self]
    omega
  have hrev : l.reverse =
      d.reverse ++ closeBrace :: (b.reverse ++ openBrace :: a.reverse) := by
    simp [hl]
  have hje : idxOfChar closeBrace l.reverse = d.length := by
    rw [hrev, idxOfChar_append_not_mem _ (by simpa using hd),
      idxOfChar_cons_self, List.length_reverse]
    omega
  have hlen : l.length = a.length + b.length + d.length + 2 := by
    simp [hl]
    omega
  have hdrop : l.drop a.length = openBrace :: (b ++ closeBrace :: d) := by
    rw [hl, show a ++ openBrace :: b ++ closeBrace :: d =
      a ++ (openBrace :: (b ++ closeBrace :: d)) by simp]
    exact List.drop_left a _
  unfold extractCandidate
  rw [if_pos hmem, hjs, hje, hlen]
  have harith : a.length + b.length + d.length + 2 - 1 - d.length + 1 -
      a.length = b.length + 2 := by omega
  rw [harith, hdrop]
  have hsplit : openBrace :: (b ++ closeBrace :: d) =
      (openBrace :: b ++ [closeBrace]) ++ d := by simp
  rw [hsplit, List.take_left' (by simp)]

/-- Witness for the amended claim C6 at a concrete chunk. -/
theorem extract_first_open_to_last_close_witness :
    extractCandidate (['x'] ++ openBrace :: ['a'] ++ closeBrace :: ['y']) =
      some (openBrace :: ['a'] ++ [closeBrace]) :=
  extract_first_open_to_last_close ['x'] ['a'] ['y'] (by decide) (by decide)

/-- One row of the `sensor_data` table: auto-assigned identity,
insertion timestamp, source id, type label and the eight measurement
columns (`temp` on the wire lands in the `temperature` column). -/
structure StoredRow where
  rowId : Nat
  timestamp : Int
  node_id : Int
  node_type : String
  pm25 : Option Rat
  pm10 : Option Rat
  eco2 : Option Rat
  tvoc : Option Rat
  co : Option Rat
  no2 : Option Rat
  temperature : Option Rat
  humidity : Option Rat
deriving DecidableEq

/-- `DatabaseManager.validate_data` (src/IoT_Platform.py, lines
153-163): `None` passes through as `None`, a non-coercible value
becomes `None`, and a coerced value survives only inside
`[min_val, max_val]`. -/
def validate_data (value : Option JVal) (min_val max_val : Rat) : Option Rat :=
  match value with
  | none => none
  | some jv =>
    match jv.asFloat with
    | none => none
    | some q => if min_val ≤ q ∧ q ≤ max_val then some q else none

/-- `DatabaseManager.insert_sensor_data` (lines 165-191): re-validate
each measurement defensively and append one row; `dbOk` abstracts the
storage medium, and a database error is caught (`sqlite3.Error`) and
reported as a `false` return with the table untouched — the caller
never sees an exception. -/
def insert_sensor_data (store : List StoredRow) (dbOk : Bool) (now : Int)
    (node_id : Int) (data : FieldMap) : List StoredRow × Bool :=
  let row : StoredRow :=
    { rowId := store.length + 1
      timestamp := now
      node_id := node_id
      node_type := (data.nodeType.map JVal.asStr).getD "Unknown"
      pm25 := validate_data data.pm25 0 10000
      pm10 := validate_data data.pm10 0 10000
      eco2 := validate_data data.eco2 0 10000
      tvoc := validate_data data.tvoc 0 10000
      co := validate_data data.co 0 10000
      no2 := validate_data data.no2 0 10000
      temperature := validate_data data.temp (-50) 100
      humidity := validate_data data.humidity 0 100 }
  if dbOk then (store ++ [row], true) else (store, false)

/-- One row inserted by `DatabaseManager.insert_sample_data`:
iteration `i` (timestamp `i*10` minutes before `now`), node index
`nodeIdx ∈ {0,1,2}` (node ids 1..3), type label `ESP32-S3`, and eight
draws from the abstract random stream `rand`. Row ids follow insertion
order. -/
def mkSampleRow (rand : Nat → Rat) (now : Int) (i nodeIdx : Nat) : StoredRow :=
  { rowId := 3 * i + nodeIdx + 1
    timestamp := now - 600 * i
    node_id := (nodeIdx : Int) + 1
    node_type := "ESP32-S3"
    pm25 := some (rand (8 * (3 * i + nodeIdx)))
    pm10 := some (rand (8 * (3 * i + nodeIdx) + 1))
    eco2 := some (rand (8 * (3 * i + nodeIdx) + 2))
    tvoc := some (rand (8 * (3 * i + nodeIdx) + 3))
    co := some (rand (8 * (3 * i + nodeIdx) + 4))
    no2 := some (rand (8 * (3 * i + nodeIdx) + 5))
    temperature := some (rand (8 * (3 * i + nodeIdx) + 6))
    humidity := some (rand (8 * (3 * i + nodeIdx) + 7)) }

/-- The three rows one iteration of the sample loop inserts, one per
node id 1, 2, 3. -/
def sampleBlock (rand : Nat → Rat) (now : Int) (i : Nat) : List StoredRow :=
  [mkSampleRow rand now i 0, mkSampleRow rand now i 1, mkSampleRow rand now i 2]

/-- `DatabaseManager.insert_sample_data` (lines 106-151): 100
iterations, each inserting one row per node id 1, 2, 3. -/
def insert_sample_data (rand : Nat → Rat) (now : Int) : List StoredRow :=
  (List.range 100).flatMap (sampleBlock rand now)

/-- `DatabaseManager.init_database` (lines 42-104): `DROP TABLE IF
EXISTS sensor_data` discards every pre-existing row, the table is
recreated empty, and `insert_sample_data` fills it — the prior
contents do not survive initialization. -/
def init_database (rand : Nat → Rat) (now : Int)
    (_prior : List StoredRow) : List StoredRow :=
  insert_sample_data rand now

/-- The aggregate view of `DatabaseManager.get_statistics` (lines
209-243): `COUNT(*)`, the per-node `GROUP BY` counts, the `MIN`/`MAX`
timestamps. The on-disk size is a filesystem observation outside this
model. -/
structure Stats where
  total_records : Nat
  node_counts : Int → Nat
  first_record : Option Int
  last_record : Option Int

/-- `DatabaseManager.get_statistics`, computed on demand from the rows. -/
def get_statistics (store : List StoredRow) : Stats :=
  { total_records := store.length
    node_counts := fun n => store.countP (fun r => decide (r.node_id = n))
    first_record := (store.map (fun r => r.timestamp)).min?
    last_record := (store.map (fun r => r.timestamp)).max? }

/-- `DatabaseManager.get_recent_readings` (lines 193-207): rows
ordered by timestamp, newest first, limited. -/
def get_recent_readings (store : List StoredRow) (limit : Nat) :
    List StoredRow :=
  (store.insertionSort (fun x y => y.timestamp ≤ x.timestamp)).take limit

/-- The operations the running program performs against the store
after initialization: throttled inserts (with the medium healthy or
failing) and the read-only queries. -/
inductive StoreOp where
  | insertTick (dbOk : Bool) (now : Int) (node_id : Int) (data : FieldMap)
  | recentQuery (limit : Nat)
  | statsQuery

/-- Effect of one core operation on the stored rows: the queries read
only, an insert appends at most one row; nothing updates or deletes. -/
def applyOp (store : List StoredRow) : StoreOp → List StoredRow
  | .insertTick dbOk now nid d => (insert_sensor_data store dbOk now nid d).1
  | .recentQuery _ => store
  | .statsQuery => store

/-- Claim C9 (amended): within a run, after initialization, the store
is append-only — any sequence of core operations extends the row list,
so every row present stays present in place; initialization itself,
however, drops the pre-existing `sensor_data` table, so rows present
before the program starts are not preserved across a restart. -/
theorem store_append_only_within_run (store : List StoredRow)
    (ops : List StoreOp) : store <+: ops.foldl applyOp store := by
  induction ops generalizing store with
  | nil => exact List.prefix_rfl
  | cons op rest ih =>
    have h1 : store <+: applyOp store op := by
      cases op with
      | insertTick dbOk now nid d =>
        show store <+: (insert_sensor_data store dbOk now nid d).1
        cases dbOk with
        | false => exact List.prefix_rfl
        | true => exact List.prefix_append store _
      | recentQuery lim => exact List.prefix_rfl
      | statsQuery => exact List.prefix_rfl
    exact h1.trans (ih (applyOp store op))

lemma insert_sample_data_node_ids (rand : Nat → Rat) (now : Int) :
    ∀ r ∈ insert_sample_data rand now,
      r.node_id = 1 ∨ r.node_id = 2 ∨ r.node_id = 3 := by
  intro r hr
  unfold insert_sample_data at hr
  obtain ⟨i, _, hblock⟩ := List.mem_flatMap.mp hr
  unfold sampleBlock at hblock
  simp only [List.mem_cons, List.not_mem_nil, or_false] at hblock
  rcases hblock with rfl | rfl | rfl <;> simp [mkSampleRow]

/-- A row present in the durable store before the program starts. -/
def priorRow : StoredRow :=
  { rowId := 1, timestamp := 0, node_id := 7, node_type := "legacy",
    pm25 := none, pm10 := none, eco2 := none, tvoc := none, co := none,
    no2 := none, temperature := none, humidity := none }

/-- Claim C9, counterexample: a row present in the durable store
before the program starts is gone after initialization —
`init_database` drops the table before inserting the sample rows, and
none of those carries the prior row's source id. -/
theorem init_discards_prior_rows :
    priorRow ∉ init_database (fun _ => 0) 0 [priorRow] := by
  intro hmem
  have h := insert_sample_data_node_ids (fun _ => 0) 0 priorRow hmem
  simp [priorRow] at h

lemma length_flatMap_const {α β : Type} (l : List α) (f : α → List β) (c : Nat)
    (h : ∀ a ∈ l, (f a).length = c) : (l.flatMap f).length = l.length * c := by
  induction l with
  | nil => simp
  | cons a t ih =>
    rw [List.flatMap_cons, List.length_append, h a (List.mem_cons_self a t),
      ih (fun x hx => h x (List.mem_cons_of_mem a hx)), List.length_cons]
    ring

lemma countP_flatMap_const {α β : Type} (l : List α) (f : α → List β)
    (p : β → Bool) (c : Nat) (h : ∀ a ∈ l, (f a).countP p = c) :
    (l.flatMap f).countP p = l.length * c := by
  induction l with
  | nil => simp
  | cons a t ih =>
    rw [List.flatMap_cons, List.countP_append, h a (List.mem_cons_self a t),
      ih (fun x hx => h x (List.mem_cons_of_mem a hx)), List.length_cons]
    ring

set_option maxRecDepth 4096

lemma sampleBlock_count (rand : Nat → Rat) (now : Int) (i : Nat) (n : Int)
    (hn : n = 1 ∨ n = 2 ∨ n = 3) :
    (sampleBlock rand now i).countP (fun r => decide (r.node_id = n)) = 1 := by
  rcases hn with rfl | rfl | rfl <;>
    simp [sampleBlock, mkSampleRow, List.countP_cons]

/-- Claim C10: immediately after database initialization, whatever the
random stream, the clock and the prior table contents, the store holds
exactly the 300 sample rows — `get_statistics` reports 300 total
records and a count of 100 for each of sources 1, 2 and 3 — and
`get_recent_readings 50` is a non-empty list of stored sample rows. -/
theorem init_store_sample_statistics (rand : Nat → Rat) (now : Int)
    (prior : List StoredRow) :
    (get_statistics (init_database rand now prior)).total_records = 300 ∧
    (get_statistics (init_database rand now prior)).node_counts 1 = 100 ∧
    (get_statistics (init_database rand now prior)).node_counts 2 = 100 ∧
    (get_statistics (init_database rand now prior)).node_counts 3 = 100 ∧
    get_recent_readings (init_database rand now prior) 50 ≠ [] ∧
    ∀ r ∈ get_recent_readings (init_database rand now prior) 50,
      r ∈ init_database rand now prior := by
  have hlen : (init_database rand now prior).length = 300 := by
    show (insert_sample_data rand now).length = 300
    unfold insert_sample_data
    rw [length_flatMap_const (List.range 100) (sampleBlock rand now) 3
      (fun a _ => rfl), List.length_range]
  have hcount : ∀ n : Int, n = 1 ∨ n = 2 ∨ n = 3 →
      (init_database rand now prior).countP
        (fun r => decide (r.node_id = n)) = 100 := by
    intro n hn
    show (insert_sample_data rand now).countP _ = 100
    unfold insert_sample_data
    rw [countP_flatMap_const (List.range 100) (sampleBlock rand now)
      (fun r => decide (r.node_id = n)) 1
      (fun i _ => sampleBlock_count rand now i n hn), List.length_range]
  have hperm : List.Perm ((init_database rand now prior).insertionSort
      (fun x y => y.timestamp ≤ x.timestamp)) (init_database rand now prior) :=
    List.perm_insertionSort _ _
  have hsortlen : ((init_database rand now prior).insertionSort
      (fun x y => y.timestamp ≤ x.timestamp)).length = 300 :=
    hperm.length_eq.trans hlen
  refine ⟨hlen, hcount 1 (Or.inl rfl), hcount 2 (Or.inr (Or.inl rfl)),
    hcount 3 (Or.inr (Or.inr rfl)), ?_, ?_⟩
  · have : (get_recent_readings (init_database rand now prior) 50).length = 50 := by
      unfold get_recent_readings
      rw [List.length_take, hsortlen]
      decide
    intro hnil
    rw [hnil] at this
    simp at this
  · intro r hr
    unfold get_recent_readings at hr
    exact hperm.mem_iff.mp (List.take_subset _ _ hr)

end AirQuality
